import Mathlib

/-!
Verification of the INAU build-and-install control plane against its
natural-language specification.

The definitions below are a shallow embedding of the Python sources:
`webhook.py` (webhook gateway), `build.py` (build worker and object
store), `restapi.py` (installer), and `old/inau.py` (the legacy
installer's LIBRARY filter).  Database tables are lists of rows,
machine state is passed explicitly, and external effects (git, SSH,
SMTP) appear as explicit inputs recording their outcomes.
-/

namespace Inau

/-! ## Python string primitives

Helpers mirroring the Python string operations used by the sources:
substring membership (`needle in hay`), anchored regex search
(`re.search("^pat", s)` is a plain leading-match test), and
`str.replace(pat, "")` which removes every non-overlapping occurrence
left to right. -/

/-- Does `pat` occur at the very start of `s`?  (Python `str.startswith`,
also `re.search` with a `^`-anchored literal pattern.) -/
def leadMatch : List Char → List Char → Bool
  | [], _ => true
  | _ :: _, [] => false
  | a :: as, b :: bs => if a = b then leadMatch as bs else false

/-- Does `needle` occur anywhere inside `hay`?  (Python `needle in hay`.) -/
def hasSub (needle : List Char) : List Char → Bool
  | [] => needle.isEmpty
  | c :: rest => leadMatch needle (c :: rest) || hasSub needle rest

/-- Python `needle in hay` on `String`. -/
def pyIn (needle hay : String) : Bool := hasSub needle.data hay.data

/-- Python `s.startswith(pat)` on `String`. -/
def pyStartsWith (s pat : String) : Bool := leadMatch pat.data s.data

/-- Scanning worker of `removeAll`.  The fuel argument only bounds the
recursion (each step consumes at least one character, so fuel equal to
the input length is enough); it keeps the definition structurally
recursive so that it evaluates inside the kernel. -/
def removeAllFuel (pat : List Char) : Nat → List Char → List Char
  | 0, s => s
  | _, [] => []
  | fuel + 1, c :: rest =>
    if pat ≠ [] ∧ leadMatch pat (c :: rest) = true then
      removeAllFuel pat fuel (List.drop (pat.length - 1) rest)
    else
      c :: removeAllFuel pat fuel rest

/-- Python `s.replace(pat, "")`: remove every non-overlapping occurrence
of `pat`, scanning left to right. -/
def removeAll (pat s : List Char) : List Char := removeAllFuel pat s.length s

/-! ## Catalog data model

Rows of the relational catalog, from the SQLModel classes in
`webhook.py` / `models.py`.  The `IntEnum` encodings are kept as the
literal integers the source declares. -/

/-- Value `BuildStatus.SCHEDULED` from `webhook.py` / `models.py` (an `IntEnum`). -/
def SCHEDULED : Nat := 0
/-- Value `BuildStatus.RUNNING`. -/
def RUNNING : Nat := 1
/-- Value `BuildStatus.SUCCESS`. -/
def SUCCESS : Nat := 2
/-- Value `BuildStatus.FAILED`. -/
def FAILED : Nat := 3
/-- Value `BuildStatus.CANCELLED`. -/
def CANCELLED : Nat := 4

/-- Value `RepositoryType.CPLUSPLUS` from `webhook.py` (`old/inau.py` uses the same
numbering with lowercase names, `library = 4`). -/
def CPLUSPLUS : Nat := 0
/-- Value `RepositoryType.PYTHON`. -/
def PYTHON : Nat := 1
/-- Value `RepositoryType.CONFIGURATION`. -/
def CONFIGURATION : Nat := 2
/-- Value `RepositoryType.SHELLSCRIPT`. -/
def SHELLSCRIPT : Nat := 3
/-- Value `RepositoryType.LIBRARY`. -/
def LIBRARY : Nat := 4

/-- Value `InstallationType.GLOBAL` from `webhook.py` / `restapi.py`. -/
def GLOBAL : Nat := 0
/-- Value `InstallationType.FACILITY`. -/
def FACILITY : Nat := 1
/-- Value `InstallationType.HOST`. -/
def HOSTTYPE : Nat := 2

/-- A row of the `repositories` table (`Repository` in `webhook.py`). -/
structure RepositoryRow where
  id : Nat
  provider_id : Nat
  platform_id : Nat
  type : Nat
  name : String
  destination : String
  enabled : Bool
deriving DecidableEq, Repr

/-- A row of the `builds` table (`Build` in `webhook.py` / `models.py`).
`date` abstracts the `datetime` column as a number. -/
structure BuildRow where
  id : Nat
  repository_id : Nat
  platform_id : Nat
  tag : String
  date : Nat
  status : Nat
  output : Option String
deriving DecidableEq, Repr

/-- A row of the `servers` table (`Server` in `restapi.py`). -/
structure ServerRow where
  id : Nat
  platform_id : Nat
  name : String
  pfx : String
deriving DecidableEq, Repr

/-- A row of the `hosts` table (`Host` in `restapi.py`). -/
structure HostRow where
  id : Nat
  facility_id : Nat
  server_id : Nat
  platform_id : Nat
  name : String
deriving DecidableEq, Repr

/-- A row of the `users` table (`User` in `restapi.py`). -/
structure UserRow where
  id : Nat
  name : String
  admin : Bool
  notify : Bool
deriving DecidableEq, Repr

/-- A row of the `installations` table (`Installation` in `restapi.py`),
with `datetime` columns abstracted as numbers. -/
structure InstallationRow where
  host_id : Nat
  user_id : Nat
  build_id : Nat
  build_date : Nat
  type : Nat
  install_date : Nat
  valid_from : Nat
  valid_to : Option Nat
deriving DecidableEq, Repr

/-- The relational state the verified operations touch, as lists of
rows.  `nextBuildId` models primary-key assignment on insert; `clock`
models `datetime.utcnow()` used for the `date` column default. -/
structure Catalog where
  repositories : List RepositoryRow
  builds : List BuildRow
  installations : List InstallationRow
  users : List UserRow
  nextBuildId : Nat
  clock : Nat
deriving DecidableEq, Repr

/-! ## Webhook gateway (`webhook.py`) -/

/-- A commit entry of the GitLab payload (`GitLabCommit`), restricted to
the fields the gateway reads. -/
structure CommitInfo where
  id : String
  author_email : String
deriving DecidableEq, Repr

/-- The project block of the GitLab payload (`GitLabProject`),
restricted to the fields the gateway reads. -/
structure ProjectInfo where
  ssh_url : String
  default_branch : String
  path_with_namespace : String
deriving DecidableEq, Repr

/-- The GitLab tag-push payload (`GitLabWebhook`), restricted to the
fields the gateway reads. -/
structure WebhookPayload where
  object_kind : String
  after : String
  ref : String
  user_username : String
  user_email : String
  project : ProjectInfo
  commits : List CommitInfo
deriving DecidableEq, Repr

/-- The Celery build task assembled in `schedule_builds`
(`build_task` dictionary; `BuildTask` in `build.py`). -/
structure JobMsg where
  build_id : Nat
  repository_id : Nat
  platform_id : Nat
  tag : String
  repository_name : String
  repository_url : String
  repository_type : Nat
  user_email : String
  default_branch : String
  emails : List (Option String)
deriving DecidableEq, Repr

/-- Function `extract_tag_from_ref` in `webhook.py`: returns the ref with every
occurrence of `"refs/tags/"` removed when the ref starts with that
string (Python `str.replace` removes all occurrences), else `None`. -/
def extract_tag_from_ref (ref : String) : Option String :=
  if pyStartsWith ref "refs/tags/" then
    some (String.mk (removeAll "refs/tags/".data ref.data))
  else
    none

/-- Function `find_repositories` in `webhook.py`: every enabled repository row
whose name equals the project path. -/
def find_repositories (db : Catalog) (project_path : String) : List RepositoryRow :=
  db.repositories.filter (fun r => r.name == project_path && r.enabled)

/-- The existing-build query of `schedule_builds`: the first build row
matching the `(repository_id, platform_id, tag)` key. -/
def findExisting (builds : List BuildRow) (rid pid : Nat) (tag : String) : Option BuildRow :=
  builds.find? (fun b => b.repository_id == rid && b.platform_id == pid && b.tag == tag)

/-- The `(repository_id, platform_id, tag)` admission key of a build row. -/
def keyOf (b : BuildRow) : Nat × Nat × String := (b.repository_id, b.platform_id, b.tag)

/-- The Celery task dictionary built in `schedule_builds` for a fresh
build: the notification email falls back from the first commit author
to the payload's `user_email` when the commit list is empty. -/
def mkJob (b : BuildRow) (r : RepositoryRow) (tag : String) (w : WebhookPayload) : JobMsg :=
  { build_id := b.id
    repository_id := r.id
    platform_id := r.platform_id
    tag := tag
    repository_name := r.name
    repository_url := w.project.ssh_url
    repository_type := r.type
    user_email := match w.commits with
      | [] => w.user_email
      | c :: _ => c.author_email
    default_branch := w.project.default_branch
    emails := [match w.commits with
        | [] => none
        | c :: _ => some c.author_email,
      some (w.user_username ++ "@elettra.eu"),
      some w.user_email] }

/-- Function `schedule_builds` in `webhook.py`: for each matched repository, if
no build row exists for `(repository_id, platform_id, tag)`, insert a
`SCHEDULED` row (committed immediately, so later repositories in the
same delivery see it) and enqueue one Celery job; otherwise do
nothing.  Returns the new catalog, the enqueued jobs, and the created
builds. -/
def schedule_builds (db : Catalog) (repos : List RepositoryRow) (tag : String)
    (w : WebhookPayload) : Catalog × List JobMsg × List BuildRow :=
  match repos with
  | [] => (db, [], [])
  | r :: rest =>
    match findExisting db.builds r.id r.platform_id tag with
    | some _ => schedule_builds db rest tag w
    | none =>
      let b : BuildRow :=
        { id := db.nextBuildId
          repository_id := r.id
          platform_id := r.platform_id
          tag := tag
          date := db.clock
          status := SCHEDULED
          output := none }
      let db' := { db with builds := db.builds ++ [b], nextBuildId := db.nextBuildId + 1 }
      let rec_result := schedule_builds db' rest tag w
      (rec_result.1, mkJob b r tag w :: rec_result.2.1, b :: rec_result.2.2)

/-- The response of the webhook endpoint: HTTP status, message, the
catalog after the request, the Celery jobs enqueued, and the builds
listed in the response body. -/
structure HookOutcome where
  status : Nat
  message : String
  newDb : Catalog
  jobs : List JobMsg
  builds : List BuildRow
deriving DecidableEq, Repr

/-- Forty zeros: the `after` value GitLab sends for a tag deletion. -/
def zeros40 : String := "0000000000000000000000000000000000000000"

/-- The lightweight-tag test of `handle_gitlab_webhook`:
`webhook.commits and webhook.after == webhook.commits[0].id` — an empty
commit list makes the whole condition falsy. -/
def is_lightweight (w : WebhookPayload) : Bool :=
  match w.commits with
  | [] => false
  | c :: _ => w.after == c.id

/-- Endpoint `handle_gitlab_webhook` in `webhook.py`: the admission filter
(non-tag-push, tag deletion, invalid or empty ref, lightweight tag),
then repository lookup and build scheduling.  Python's `if not tag`
treats both `None` and the empty string as invalid. -/
def handle_gitlab_webhook (db : Catalog) (w : WebhookPayload) : HookOutcome :=
  if w.object_kind ≠ "tag_push" then
    ⟨200, "Ignored: not a tag push event", db, [], []⟩
  else if w.after = zeros40 then
    ⟨200, "Ignored: tag deletion", db, [], []⟩
  else
    match extract_tag_from_ref w.ref with
    | none => ⟨400, "Invalid tag reference", db, [], []⟩
    | some tag =>
      if tag = "" then ⟨400, "Invalid tag reference", db, [], []⟩
      else if is_lightweight w then
        ⟨200, "Ignored: lightweight tag", db, [], []⟩
      else
        if find_repositories db w.project.path_with_namespace = [] then
          ⟨200, "Repository " ++ w.project.path_with_namespace ++ " not configured for builds",
            db, [], []⟩
        else
          ⟨201, "Scheduled builds for tag " ++ tag,
            (schedule_builds db (find_repositories db w.project.path_with_namespace) tag w).1,
            (schedule_builds db (find_repositories db w.project.path_with_namespace) tag w).2.1,
            (schedule_builds db (find_repositories db w.project.path_with_namespace) tag w).2.2⟩

/-- Applies `n` identical deliveries of the same payload, each to the
catalog the previous one produced. -/
def deliver_iter (w : WebhookPayload) : Nat → Catalog → Catalog
  | 0, db => db
  | n + 1, db => deliver_iter w n (handle_gitlab_webhook db w).newDb

/-- No two build rows share the `(repository_id, platform_id, tag)`
admission key. -/
def keysOnce : List BuildRow → Bool
  | [] => true
  | b :: rest => rest.all (fun x => !(decide (keyOf x = keyOf b))) && keysOnce rest

/-! ## Build worker (`build.py`) -/

/-- The default-branch membership test of
`BuildWorker.update_repository`: the output lines of
`git branch --no-color --contains <tag>` are accepted when some line
contains the default branch name as a substring
(`task.default_branch in branch`). -/
def update_repository_tag_ok (branchLines : List String) (default_branch : String) : Bool :=
  branchLines.any (fun br => pyIn default_branch br)

/-- One output line of `git branch --contains`: the current branch is
marked `"* "`, the others are indented `"  "`. -/
def gitBranchLine (marked : Bool) (branch : String) : String :=
  (if marked then "* " else "  ") ++ branch

/-- The rendered output lines of `git branch --contains <tag>` when
`bs` is the list of branches whose tips reach the tag and `marked`
tells which one is checked out. -/
def gitBranchLines (marked : String → Bool) (bs : List String) : List String :=
  bs.map (fun b => gitBranchLine (marked b) b)

/-- The outcomes of the external steps of one `process_build` Celery
task execution: whether `session.get(Build, id)` found the row,
whether `get_builder` found a builder, the `git branch --contains`
lines and declared default branch seen by `update_repository`, the
remote `make` exit status and output, and whether `collect_artifacts`
ran to a successful commit. -/
structure BuildEnv where
  buildFound : Bool
  builderFound : Bool
  branchLines : List String
  default_branch : String
  exitStatus : Int
  collectOk : Bool
deriving DecidableEq, Repr

/-- Task `process_build` in `build.py`, as the sequence of values committed
to the build row's `status` column, paired with whether artifact rows
were committed.  The source first commits `RUNNING`; a missing
builder, a rejected tag, or a non-zero `make` exit commits `FAILED`
(the first two via the `except` clause); exit 0 commits `SUCCESS` and
then collects artifacts, and a failure inside `collect_artifacts`
lands in the `except` clause which commits `FAILED` once more. -/
def process_build (e : BuildEnv) : List Nat × Bool :=
  if e.buildFound = false then ([], false)
  else if e.builderFound = false then ([RUNNING, FAILED], false)
  else if update_repository_tag_ok e.branchLines e.default_branch = false then
    ([RUNNING, FAILED], false)
  else if e.exitStatus ≠ 0 then ([RUNNING, FAILED], false)
  else if e.collectOk then ([RUNNING, SUCCESS], true)
  else ([RUNNING, SUCCESS, FAILED], false)

/-! ## Object store (`BuildWorker._hash_and_store_file` in `build.py`)

A file is a list of bytes; the store maps structured paths
`<root>/<h[:2]>/<h[2:4]>/<h>` to file contents.  SHA-256 itself is the
external `hashlib` library, modeled as a function parameter; the
claims that need it assume it collision-free. -/

/-- A byte of file content. -/
abbrev Byte := Fin 256

/-- A path inside the object store root: two directory levels and a
file name. -/
structure StorePath where
  d1 : String
  d2 : String
  fname : String
deriving DecidableEq, Repr

/-- The object store: a map from paths to file contents, as an
association list where the most recent write shadows. -/
abbrev Store := List (StorePath × List Byte)

/-- Look a path up in the store. -/
def slookup : Store → StorePath → Option (List Byte)
  | [], _ => none
  | (q, v) :: rest, p => if q = p then some v else slookup rest p

/-- Create a file in the store. -/
def sinsert (s : Store) (p : StorePath) (v : List Byte) : Store := (p, v) :: s

/-- The content address of digest `h`:
`Path(STORE_BASE_DIR) / h[:2] / h[2:4] / h`. -/
def storePathOf (h : String) : StorePath :=
  ⟨h.take 2, (h.drop 2).take 2, h⟩

/-- Method `BuildWorker._hash_and_store_file`: digest the file, create the
two directory levels, and if the content address is not yet occupied
copy the file there (`shutil.copy2` straight to `store_path`); return
the hex digest. -/
def hash_and_store_file (hashFn : List Byte → String) (data : List Byte) (s : Store) :
    String × Store :=
  if (slookup s (storePathOf (hashFn data))).isSome then (hashFn data, s)
  else (hashFn data, sinsert s (storePathOf (hashFn data)) data)

/-- Method `_hash_and_store_file` interrupted while copying: `shutil.copy2`
opens the final store path directly and writes the source sequentially
(there is no temporary path, fsync, or rename in the source), so an
ingestion of an unoccupied address that stops after `k` bytes leaves
the first `k` bytes of the file visible at the content address. -/
def hash_and_store_file_interrupted (hashFn : List Byte → String) (data : List Byte)
    (s : Store) (k : Nat) : Store :=
  if (slookup s (storePathOf (hashFn data))).isSome then s
  else sinsert s (storePathOf (hashFn data)) (data.take k)

/-- The fixed injective digest function used to witness the store
theorems: the hex dump of the file, two lowercase hex characters per
byte. -/
def hexChar (n : Nat) : Char :=
  if n < 10 then Char.ofNat (48 + n) else Char.ofNat (87 + n)

/-- Two hex characters of one byte. -/
def hexByte (b : Byte) : List Char := [hexChar (b.val / 16), hexChar (b.val % 16)]

/-- Hex dump of a byte list. -/
def hexOfBytes : List Byte → List Char
  | [] => []
  | b :: rest => hexByte b ++ hexOfBytes rest

/-- The witness digest function. -/
def hexDigest (data : List Byte) : String := String.mk (hexOfBytes data)

/-! ## Installer (`install` in `restapi.py`) -/

/-- The error outcomes of the install request: `userNotFound` and
`noDestinations` are the preliminary 404s, `buildNotFound` is the 404
raised when a server has a repository but no successful build for the
tag, `sshFailure` is the 500 raised when placement on a server
fails. -/
inductive InstallError where
  | userNotFound : InstallError
  | noDestinations : InstallError
  | buildNotFound : Nat → InstallError
  | sshFailure : Nat → InstallError
deriving DecidableEq, Repr

/-- The repository query of `install`: the first repository row with
the server's platform and the requested name. -/
def resolveRepository (repos : List RepositoryRow) (pid : Nat) (reponame : String) :
    Option RepositoryRow :=
  repos.find? (fun r => r.platform_id == pid && r.name == reponame)

/-- Query `ORDER BY builds.id DESC LIMIT 1`: the row with the largest id (row
ids are unique primary keys, so ties do not arise). -/
def pickLatest : List BuildRow → Option BuildRow
  | [] => none
  | b :: rest =>
    match pickLatest rest with
    | none => some b
    | some m => if m.id < b.id then some b else some m

/-- The build query of `install`: the highest-id build with the
repository, the tag, and status `SUCCESS`. -/
def resolveBuild (builds : List BuildRow) (rid : Nat) (tag : String) : Option BuildRow :=
  pickLatest (builds.filter
    (fun b => b.repository_id == rid && b.tag == tag && b.status == SUCCESS))

/-- One `Installation` row as `install` constructs it: the same `now`
timestamp in `install_date` and `valid_from`, the default `None` in
`valid_to`, and the acting user's id. -/
def mkInstallationRow (uid : Nat) (b : BuildRow) (itype now : Nat) (h : HostRow) :
    InstallationRow :=
  { host_id := h.id
    user_id := uid
    build_id := b.id
    build_date := b.date
    type := itype
    install_date := now
    valid_from := now
    valid_to := none }

/-- The per-server loop of `install` in `restapi.py`.  Each server:
resolve the repository (skip the server if none), resolve the build
(abort 404 if none), place the artifacts over SSH (`ssh server.id`
gives the outcome; abort 500 on failure), then stage one `Installation`
row per host with `session.add`.  `acc` is the list of rows staged so
far; rows reach the database only through the single `session.commit()`
that runs after the loop. -/
def installLoop (db : Catalog) (uid : Nat) (reponame tag : String) (itype : Nat)
    (ssh : Nat → Bool) (now : Nat) :
    List (ServerRow × List HostRow) → List InstallationRow →
    Except InstallError (List InstallationRow)
  | [], acc => .ok acc
  | (server, hosts) :: rest, acc =>
    match resolveRepository db.repositories server.platform_id reponame with
    | none => installLoop db uid reponame tag itype ssh now rest acc
    | some repo =>
      match resolveBuild db.builds repo.id tag with
      | none => .error (.buildNotFound server.id)
      | some build =>
        if ssh server.id then
          installLoop db uid reponame tag itype ssh now rest
            (acc ++ hosts.map (mkInstallationRow uid build itype now))
        else
          .error (.sshFailure server.id)

/-- Function `install` in `restapi.py`: look the acting user up, require a
non-empty destination map, then run the per-server loop. -/
def install_run (db : Catalog) (username reponame tag : String)
    (destinations : List (ServerRow × List HostRow)) (itype : Nat)
    (ssh : Nat → Bool) (now : Nat) : Except InstallError (List InstallationRow) :=
  match db.users.find? (fun u => u.name == username) with
  | none => .error .userNotFound
  | some user =>
    if destinations = [] then .error .noDestinations
    else installLoop db user.id reponame tag itype ssh now destinations []

/-- The `installations` table after the request: the staged rows are
appended by the single `session.commit()` after the loop, which is
reached only when every server succeeded; when the request aborts with
an error the session is closed without committing and the staged rows
are discarded. -/
def install_persisted (db : Catalog) (username reponame tag : String)
    (destinations : List (ServerRow × List HostRow)) (itype : Nat)
    (ssh : Nat → Bool) (now : Nat) : List InstallationRow :=
  match install_run db username reponame tag destinations itype ssh now with
  | .ok rows => db.installations ++ rows
  | .error _ => db.installations

/-! ## Legacy installer LIBRARY filter (`install` in `old/inau.py`) -/

/-- The artifact filter of the legacy `install`: for a LIBRARY
repository going to a facility other than `"development"`, keep an
artifact only when its filename matches `re.search("^(lib/|bin/)", ·)`
but not `re.search("^(lib/cmake|lib/pkgconfig)", ·)`; every other
repository type or the development facility keeps everything. -/
def library_artifact_kept (rtype : Nat) (facility : String) (filename : String) : Bool :=
  if rtype = LIBRARY ∧ facility ≠ "development" then
    if pyStartsWith filename "lib/" || pyStartsWith filename "bin/" then
      if pyStartsWith filename "lib/cmake" || pyStartsWith filename "lib/pkgconfig" then
        false
      else
        true
    else
      false
  else
    true

/-! ## Concrete instances used by witnesses and counterexamples -/

/-- A catalog repository row for project `cs/ds/fake` on platform 8. -/
def repo_fake : RepositoryRow :=
  { id := 1, provider_id := 1, platform_id := 8, type := CPLUSPLUS,
    name := "cs/ds/fake", destination := "/ds/", enabled := true }

/-- An annotated-tag push payload for `cs/ds/fake`. -/
def payload_tag : WebhookPayload :=
  { object_kind := "tag_push"
    after := "def456def456"
    ref := "refs/tags/1.2.3"
    user_username := "alice"
    user_email := "alice@elettra.eu"
    project := { ssh_url := "git@gitlab.elettra.eu:cs/ds/fake.git",
                 default_branch := "master",
                 path_with_namespace := "cs/ds/fake" }
    commits := [{ id := "abc123abc123", author_email := "bob@elettra.eu" }] }

/-- A catalog that already holds the build row for
`(repo_fake, platform 8, tag "1.2.3")`. -/
def db_existing : Catalog :=
  { repositories := [repo_fake]
    builds := [{ id := 1, repository_id := 1, platform_id := 8, tag := "1.2.3",
                 date := 0, status := SCHEDULED, output := none }]
    installations := [], users := [], nextBuildId := 2, clock := 0 }

/-- The lightweight-tag variant of `payload_tag`: `after` equals the
first commit id. -/
def payload_light : WebhookPayload :=
  { payload_tag with after := "abc123abc123" }

/-- A tag-push payload whose commit list is empty. -/
def payload_nocommits : WebhookPayload :=
  { payload_tag with commits := [] }

/-- A catalog with the `cs/ds/fake` repository and no builds. -/
def db_hook : Catalog :=
  { repositories := [repo_fake], builds := [], installations := [], users := [],
    nextBuildId := 1, clock := 0 }

/-- A build environment whose tag sits only on branch `feature-master`
while the declared default branch is `master`, and whose remote build
exits 0. -/
def env_featuremaster : BuildEnv :=
  { buildFound := true, builderFound := true
    branchLines := gitBranchLines (fun _ => false) ["feature-master"]
    default_branch := "master", exitStatus := 0, collectOk := true }

/-- A build environment where `make` exits 0 but artifact collection
fails after the success commit. -/
def env_collectfail : BuildEnv :=
  { buildFound := true, builderFound := true
    branchLines := ["* master"]
    default_branch := "master", exitStatus := 0, collectOk := false }

/-- A two-byte file for the store witnesses. -/
def file_c2 : List Byte := [0, 171]

/-- A two-byte file for the atomicity counterexample. -/
def file_c3 : List Byte := [3, 7]

/-- The acting user of the installer instances. -/
def user_alice : UserRow := { id := 1, name := "alice", admin := false, notify := false }

/-- Installer instance: repository `app` on platform 1. -/
def repo_app1 : RepositoryRow :=
  { id := 1, provider_id := 1, platform_id := 1, type := CPLUSPLUS,
    name := "app", destination := "/ds/", enabled := true }

/-- Installer instance: repository `app` on platform 2. -/
def repo_app2 : RepositoryRow :=
  { id := 2, provider_id := 1, platform_id := 2, type := CPLUSPLUS,
    name := "app", destination := "/ds/", enabled := true }

/-- The id-20 successful build of `repo_app1` at tag `v1`. -/
def build20 : BuildRow :=
  { id := 20, repository_id := 1, platform_id := 1, tag := "v1", date := 6,
    status := SUCCESS, output := none }

/-- Catalog for the build-selection witness: three builds of `repo_app1`
at tag `v1` — SUCCESS id 10, SUCCESS id 20, FAILED id 30. -/
def db_select : Catalog :=
  { repositories := [repo_app1]
    builds := [{ id := 10, repository_id := 1, platform_id := 1, tag := "v1", date := 5,
                 status := SUCCESS, output := none },
               build20,
               { id := 30, repository_id := 1, platform_id := 1, tag := "v1", date := 7,
                 status := FAILED, output := none }]
    installations := [], users := [user_alice], nextBuildId := 31, clock := 9 }

/-- Server on platform 1 of the installer instances. -/
def server1 : ServerRow := { id := 1, platform_id := 1, name := "srv1", pfx := "/runtime" }

/-- Server on platform 2 of the installer instances. -/
def server2 : ServerRow := { id := 2, platform_id := 2, name := "srv2", pfx := "/runtime" }

/-- Host behind `server1`. -/
def host1 : HostRow := { id := 1, facility_id := 1, server_id := 1, platform_id := 1, name := "h1" }

/-- Host behind `server2`. -/
def host2 : HostRow := { id := 2, facility_id := 1, server_id := 2, platform_id := 2, name := "h2" }

/-- The id-10 successful build of `repo_app1` in the two-server catalog. -/
def build10 : BuildRow :=
  { id := 10, repository_id := 1, platform_id := 1, tag := "v1", date := 5,
    status := SUCCESS, output := none }

/-- The id-11 successful build of `repo_app2` in the two-server catalog. -/
def build11 : BuildRow :=
  { id := 11, repository_id := 2, platform_id := 2, tag := "v1", date := 5,
    status := SUCCESS, output := none }

/-- Catalog for the two-server install instances: `app` is built
successfully on both platforms. -/
def db_twoservers : Catalog :=
  { repositories := [repo_app1, repo_app2]
    builds := [build10, build11]
    installations := [], users := [user_alice], nextBuildId := 12, clock := 9 }

/-- The destination map of the two-server install instances. -/
def dests_two : List (ServerRow × List HostRow) := [(server1, [host1]), (server2, [host2])]

/-- SSH outcome where placement succeeds on server 1 and fails on
server 2. -/
def ssh_second_fails (sid : Nat) : Bool := sid == 1

/-- SSH outcome where placement succeeds everywhere. -/
def ssh_all_ok (_ : Nat) : Bool := true

/-- A build environment whose tag sits only on branch `devel` while the
declared default branch is `master`. -/
def env_devel : BuildEnv :=
  { buildFound := true, builderFound := true
    branchLines := gitBranchLines (fun _ => false) ["devel"]
    default_branch := "master", exitStatus := 0, collectOk := true }

/-! ## Helper lemmas -/

theorem leadMatch_refl (l : List Char) : leadMatch l l = true := by
  induction l with
  | nil => rfl
  | cons a as ih => simp [leadMatch, ih]

theorem hasSub_cons (n : List Char) (c : Char) (h : List Char)
    (hs : hasSub n h = true) : hasSub n (c :: h) = true := by
  simp [hasSub, hs]

theorem hasSub_self (l : List Char) : hasSub l l = true := by
  cases l with
  | nil => rfl
  | cons c rest => simp [hasSub, leadMatch_refl]

theorem hasSub_append_left (pad n h : List Char) (hs : hasSub n h = true) :
    hasSub n (pad ++ h) = true := by
  induction pad with
  | nil => simpa using hs
  | cons c cs ih => simpa using hasSub_cons n c (cs ++ h) ih

theorem pyIn_branchLine (m : Bool) (b : String) : pyIn b (gitBranchLine m b) = true := by
  have hdata : (gitBranchLine m b).data = (if m then "* " else "  ").data ++ b.data := by
    unfold gitBranchLine
    cases m <;> rfl
  unfold pyIn
  rw [hdata]
  exact hasSub_append_left _ _ _ (hasSub_self b.data)

/-! ## C9 — LIBRARY install filter (legacy installer) -/

/-- C9: for a LIBRARY-type install to a facility other than the
development one, the legacy installer skips every artifact whose
filename starts with `lib/cmake` or `lib/pkgconfig`, installs every
artifact whose filename starts with `lib/` or `bin/` and is outside
those two subtrees, and installs nothing outside `lib/` and `bin/`. -/
theorem library_filter_correct (facility filename : String)
    (hfac : facility ≠ "development") :
    ((pyStartsWith filename "lib/cmake" = true ∨
        pyStartsWith filename "lib/pkgconfig" = true) →
      library_artifact_kept LIBRARY facility filename = false) ∧
    ((pyStartsWith filename "lib/" = true ∨ pyStartsWith filename "bin/" = true) →
      pyStartsWith filename "lib/cmake" = false →
      pyStartsWith filename "lib/pkgconfig" = false →
      library_artifact_kept LIBRARY facility filename = true) ∧
    (pyStartsWith filename "lib/" = false → pyStartsWith filename "bin/" = false →
      library_artifact_kept LIBRARY facility filename = false) := by
  unfold library_artifact_kept
  rw [if_pos ⟨rfl, hfac⟩]
  refine ⟨?_, ?_, ?_⟩
  · intro hcm
    have hB : (pyStartsWith filename "lib/cmake" || pyStartsWith filename "lib/pkgconfig") =
        true := by
      rcases hcm with h | h <;> simp [h]
    by_cases hA : (pyStartsWith filename "lib/" || pyStartsWith filename "bin/") = true
    · simp [hA, hB]
    · simp [Bool.eq_false_iff.mpr (fun hc => hA hc), hA]
  · intro hlb hc1 hc2
    have hA : (pyStartsWith filename "lib/" || pyStartsWith filename "bin/") = true := by
      rcases hlb with h | h <;> simp [h]
    simp [hA, hc1, hc2]
  · intro h1 h2
    simp [h1, h2]

/-- C9 witness: `lib/libfoo.so` is kept and `lib/cmake/fooConfig.cmake`
and `etc/foo.conf` are dropped for facility `fermi`. -/
theorem library_filter_correct_witness :
    ("fermi" ≠ "development" ∧
      library_artifact_kept LIBRARY "fermi" "lib/cmake/fooConfig.cmake" = false) ∧
    (library_artifact_kept LIBRARY "fermi" "lib/libfoo.so" = true ∧
      library_artifact_kept LIBRARY "fermi" "etc/foo.conf" = false) := by
  have hfac : "fermi" ≠ "development" := by decide
  have h1 := (library_filter_correct "fermi" "lib/cmake/fooConfig.cmake" hfac).1
    (Or.inl (by decide))
  have h2 := (library_filter_correct "fermi" "lib/libfoo.so" hfac).2.1
    (Or.inl (by decide)) (by decide) (by decide)
  have h3 := (library_filter_correct "fermi" "etc/foo.conf" hfac).2.2 (by decide) (by decide)
  exact ⟨⟨hfac, h1⟩, h2, h3⟩

/-! ## C5 — build status transitions -/

/-- C5 counterexample: when `make` exits 0 but `collect_artifacts`
fails after the `SUCCESS` commit, the worker commits the status
sequence RUNNING, SUCCESS, FAILED — the build's status changes again
after reaching SUCCESS, so a Build is not immutable after reaching a
terminal status. -/
theorem process_build_success_then_failed :
    process_build env_collectfail = ([RUNNING, SUCCESS, FAILED], false) ∧
    [RUNNING, SUCCESS, FAILED][1]? = some SUCCESS ∧
    [RUNNING, SUCCESS, FAILED][2]? = some FAILED ∧
    SUCCESS ≠ FAILED := by
  refine ⟨?_, by decide, by decide, by decide⟩
  decide

/-- C5 amended: every `process_build` execution commits one of the
status sequences `[]` (row missing), RUNNING→FAILED, RUNNING→SUCCESS,
or RUNNING→SUCCESS→FAILED; the last occurs exactly in the
exit-0-with-collection-failure case.  SCHEDULED is never re-entered,
RUNNING appears only as the first commit, and FAILED is final; the one
transition the original claim excludes is SUCCESS→FAILED after a
post-commit artifact-collection failure. -/
theorem process_build_monotonic (e : BuildEnv) :
    process_build e = ([], false) ∨
    process_build e = ([RUNNING, FAILED], false) ∨
    process_build e = ([RUNNING, SUCCESS], true) ∨
    (process_build e = ([RUNNING, SUCCESS, FAILED], false) ∧
      e.exitStatus = 0 ∧ e.collectOk = false) := by
  unfold process_build
  by_cases h1 : e.buildFound = false
  · simp [h1]
  · by_cases h2 : e.builderFound = false
    · simp [h1, h2]
    · by_cases h3 : update_repository_tag_ok e.branchLines e.default_branch = false
      · simp [h1, h2, h3]
      · by_cases h4 : e.exitStatus ≠ 0
        · simp [h1, h2, h3, h4]
        · by_cases h5 : e.collectOk
          · simp [h1, h2, h3, h4, h5]
          · push_neg at h4
            simp [h1, h2, h3, h4, h5, Bool.eq_false_iff.mpr h5]

/-! ## C4 — tag reachability check -/

/-- C4 counterexample: the tag is contained only in branch
`feature-master` (so it is not reachable from the default branch
`master`), yet the substring test of `update_repository` accepts the
line `"  feature-master"` and the build proceeds to SUCCESS with
committed artifacts. -/
theorem update_repository_substring_escape :
    "master" ∉ ["feature-master"] ∧
    update_repository_tag_ok (gitBranchLines (fun _ => false) ["feature-master"])
      "master" = true ∧
    process_build env_featuremaster = ([RUNNING, SUCCESS], true) := by
  refine ⟨by decide, by decide, by decide⟩

/-- C4 amended: the update step rejects a job exactly when no line of
`git branch --contains <tag>` contains the default branch name as a
substring.  A tag reachable from the default branch is therefore always
accepted, and when every containing branch's line avoids the default
branch name as a substring — in particular whenever the claim's
intended reading applies and additionally no containing branch merely
embeds that name — the job is rejected and the worker commits
RUNNING→FAILED with no artifact rows. -/
theorem update_repository_tag_check (bs : List String) (marked : String → Bool)
    (e : BuildEnv) (hlines : e.branchLines = gitBranchLines marked bs) :
    (e.default_branch ∈ bs →
      update_repository_tag_ok e.branchLines e.default_branch = true) ∧
    ((∀ b ∈ bs, pyIn e.default_branch (gitBranchLine (marked b) b) = false) →
      e.buildFound = true → e.builderFound = true →
      process_build e = ([RUNNING, FAILED], false)) := by
  constructor
  · intro hmem
    rw [hlines]
    unfold update_repository_tag_ok gitBranchLines
    rw [List.any_eq_true]
    exact ⟨gitBranchLine (marked e.default_branch) e.default_branch,
      List.mem_map.mpr ⟨e.default_branch, hmem, rfl⟩,
      pyIn_branchLine _ _⟩
  · intro hnone hbf hbld
    have hno : update_repository_tag_ok e.branchLines e.default_branch = false := by
      rw [hlines]
      unfold update_repository_tag_ok gitBranchLines
      rw [List.any_eq_false]
      intro line hline
      obtain ⟨b, hb, rfl⟩ := List.mem_map.mp hline
      simp [hnone b hb]
    unfold process_build
    simp [hbf, hbld, hno]

/-- C4 witness: with the tag contained only in branches `devel` and
`master`, the check accepts (reachable direction), and with the tag
contained only in `devel` it rejects and the worker fails the build
without artifacts. -/
theorem update_repository_tag_check_witness :
    ("master" ∈ ["devel", "master"] ∧
      update_repository_tag_ok (gitBranchLines (fun _ => false) ["devel", "master"])
        "master" = true) ∧
    ((∀ b ∈ ["devel"], pyIn "master" (gitBranchLine false b) = false) ∧
      process_build env_devel = ([RUNNING, FAILED], false)) := by
  constructor
  · exact ⟨by decide,
      (update_repository_tag_check ["devel", "master"] (fun _ => false)
        { env_devel with branchLines := gitBranchLines (fun _ => false) ["devel", "master"] }
        rfl).1 (by decide)⟩
  · refine ⟨by decide, ?_⟩
    exact (update_repository_tag_check ["devel"] (fun _ => false) env_devel rfl).2
      (by decide) rfl rfl

/-! ## C8 — lightweight tags are ignored -/

/-- C8: a tag-push delivery (not a deletion, with a valid non-empty
tag ref) whose commit list is non-empty and whose `after` equals the
first commit's id is answered 200 with the lightweight-tag ignore
message; the catalog is unchanged, no build row is created, and no job
is enqueued. -/
theorem handle_lightweight_ignored (db : Catalog) (w : WebhookPayload)
    (c : CommitInfo) (cs : List CommitInfo) (tg : String)
    (hk : w.object_kind = "tag_push") (hz : w.after ≠ zeros40)
    (ht : extract_tag_from_ref w.ref = some tg) (hne : tg ≠ "")
    (hc : w.commits = c :: cs) (hl : w.after = c.id) :
    handle_gitlab_webhook db w = ⟨200, "Ignored: lightweight tag", db, [], []⟩ := by
  have hlight : is_lightweight w = true := by
    unfold is_lightweight
    rw [hc]
    simp [hl]
  unfold handle_gitlab_webhook
  rw [ht]
  simp [hk, hz, hne, hlight]

/-- C8 witness: the concrete lightweight payload is ignored with an
unchanged catalog. -/
theorem handle_lightweight_ignored_witness :
    (payload_light.object_kind = "tag_push" ∧ payload_light.after ≠ zeros40 ∧
      extract_tag_from_ref payload_light.ref = some "1.2.3" ∧
      payload_light.commits = [⟨"abc123abc123", "bob@elettra.eu"⟩] ∧
      payload_light.after = "abc123abc123") ∧
    handle_gitlab_webhook db_hook payload_light =
      ⟨200, "Ignored: lightweight tag", db_hook, [], []⟩ := by
  refine ⟨⟨rfl, by decide, by decide, rfl, rfl⟩, ?_⟩
  exact handle_lightweight_ignored db_hook payload_light ⟨"abc123abc123", "bob@elettra.eu"⟩
    [] "1.2.3" rfl (by decide) (by decide) (by decide) rfl rfl

/-! ## C10 — empty commit list skips the lightweight check -/

theorem schedule_builds_jobs_email (repos : List RepositoryRow) :
    ∀ (db : Catalog) (tg : String) (w : WebhookPayload), w.commits = [] →
      ∀ j ∈ (schedule_builds db repos tg w).2.1,
        j.user_email = w.user_email ∧ j.emails[0]? = some none := by
  induction repos with
  | nil =>
    intro db tg w _ j hj
    simp [schedule_builds] at hj
  | cons r rest ih =>
    intro db tg w hc j hj
    cases hfind : findExisting db.builds r.id r.platform_id tg with
    | some b =>
      rw [schedule_builds, hfind] at hj
      exact ih db tg w hc j hj
    | none =>
      rw [schedule_builds, hfind] at hj
      simp only [List.mem_cons] at hj
      rcases hj with rfl | hj
      · constructor
        · simp [mkJob, hc]
        · simp [mkJob, hc]
      · exact ih _ tg w hc j hj

/-- C10: a tag-push delivery (not a deletion, valid non-empty tag ref)
with an empty commit list skips the lightweight-tag rejection entirely
and proceeds to repository lookup and build scheduling, and every
enqueued job's notification email is the payload's `user_email` (the
commit-author fallback slot of the email list is empty). -/
theorem handle_empty_commits (db : Catalog) (w : WebhookPayload) (tg : String)
    (repos : List RepositoryRow)
    (hk : w.object_kind = "tag_push") (hz : w.after ≠ zeros40)
    (ht : extract_tag_from_ref w.ref = some tg) (hne : tg ≠ "")
    (hc : w.commits = []) :
    handle_gitlab_webhook db w =
      (if find_repositories db w.project.path_with_namespace = [] then
        ⟨200, "Repository " ++ w.project.path_with_namespace ++ " not configured for builds",
          db, [], []⟩
      else
        ⟨201, "Scheduled builds for tag " ++ tg,
          (schedule_builds db (find_repositories db w.project.path_with_namespace) tg w).1,
          (schedule_builds db (find_repositories db w.project.path_with_namespace) tg w).2.1,
          (schedule_builds db (find_repositories db w.project.path_with_namespace) tg w).2.2⟩) ∧
    ∀ j ∈ (schedule_builds db repos tg w).2.1,
      j.user_email = w.user_email ∧ j.emails[0]? = some none := by
  have hlight : is_lightweight w = false := by
    unfold is_lightweight
    rw [hc]
  constructor
  · unfold handle_gitlab_webhook
    rw [ht]
    simp [hk, hz, hne, hlight]
  · exact schedule_builds_jobs_email repos db tg w hc

/-- C10 witness: the concrete empty-commit payload schedules a build
for `cs/ds/fake` and the enqueued job's email is the payload's
`user_email`. -/
theorem handle_empty_commits_witness :
    (payload_nocommits.object_kind = "tag_push" ∧ payload_nocommits.commits = []) ∧
    (handle_gitlab_webhook db_hook payload_nocommits =
      (if find_repositories db_hook payload_nocommits.project.path_with_namespace = [] then
        ⟨200, "Repository " ++ payload_nocommits.project.path_with_namespace ++
          " not configured for builds", db_hook, [], []⟩
      else
        ⟨201, "Scheduled builds for tag " ++ "1.2.3",
          (schedule_builds db_hook
            (find_repositories db_hook payload_nocommits.project.path_with_namespace)
            "1.2.3" payload_nocommits).1,
          (schedule_builds db_hook
            (find_repositories db_hook payload_nocommits.project.path_with_namespace)
            "1.2.3" payload_nocommits).2.1,
          (schedule_builds db_hook
            (find_repositories db_hook payload_nocommits.project.path_with_namespace)
            "1.2.3" payload_nocommits).2.2⟩) ∧
      ∀ j ∈ (schedule_builds db_hook [repo_fake] "1.2.3" payload_nocommits).2.1,
        j.user_email = payload_nocommits.user_email ∧ j.emails[0]? = some none) := by
  refine ⟨⟨rfl, rfl⟩, ?_⟩
  exact handle_empty_commits db_hook payload_nocommits "1.2.3" [repo_fake]
    rfl (by decide) (by decide) (by decide) rfl

/-! ## C1 — webhook admission idempotence -/

theorem findExisting_none_keys (bs : List BuildRow) (rid pid : Nat) (tg : String)
    (h : findExisting bs rid pid tg = none) :
    ∀ x ∈ bs, keyOf x ≠ (rid, pid, tg) := by
  unfold findExisting at h
  rw [List.find?_eq_none] at h
  intro x hx heq
  have hpred := h x hx
  apply hpred
  unfold keyOf at heq
  rw [Prod.ext_iff] at heq
  obtain ⟨h1, h23⟩ := heq
  rw [Prod.ext_iff] at h23
  obtain ⟨h2, h3⟩ := h23
  simp only at h1 h2 h3
  simp [h1, h2, h3]

theorem keysOnce_append_one (bs : List BuildRow) (b : BuildRow)
    (h1 : keysOnce bs = true) (h2 : ∀ x ∈ bs, keyOf x ≠ keyOf b) :
    keysOnce (bs ++ [b]) = true := by
  induction bs with
  | nil => simp [keysOnce]
  | cons a rest ih =>
    simp only [keysOnce, Bool.and_eq_true, List.all_eq_true] at h1
    obtain ⟨ha, hrest⟩ := h1
    have hba : keyOf b ≠ keyOf a :=
      fun hh => h2 a (List.mem_cons_self a rest) hh.symm
    simp only [List.cons_append, keysOnce, Bool.and_eq_true, List.all_eq_true]
    refine ⟨?_, ih hrest (fun x hx => h2 x (List.mem_cons_of_mem a hx))⟩
    intro x hx
    rcases List.mem_append.mp hx with hx' | hx'
    · exact ha x hx'
    · simp only [List.mem_singleton] at hx'
      subst hx'
      simp [hba]

theorem schedule_builds_keysOnce (repos : List RepositoryRow) :
    ∀ (db : Catalog) (tg : String) (w : WebhookPayload), keysOnce db.builds = true →
      keysOnce (schedule_builds db repos tg w).1.builds = true := by
  induction repos with
  | nil =>
    intro db tg w h
    simpa [schedule_builds] using h
  | cons r rest ih =>
    intro db tg w h
    cases hfind : findExisting db.builds r.id r.platform_id tg with
    | some b =>
      rw [schedule_builds, hfind]
      exact ih db tg w h
    | none =>
      rw [schedule_builds, hfind]
      apply ih
      have hfree := findExisting_none_keys db.builds r.id r.platform_id tg hfind
      exact keysOnce_append_one db.builds _ h (fun x hx => hfree x hx)

theorem handle_keysOnce (db : Catalog) (w : WebhookPayload)
    (h : keysOnce db.builds = true) :
    keysOnce (handle_gitlab_webhook db w).newDb.builds = true := by
  unfold handle_gitlab_webhook
  repeat' split
  all_goals first
    | exact h
    | exact schedule_builds_keysOnce _ db _ w h

theorem deliver_iter_keysOnce (w : WebhookPayload) (n : Nat) :
    ∀ db : Catalog, keysOnce db.builds = true →
      keysOnce (deliver_iter w n db).builds = true := by
  induction n with
  | zero => intro db h; exact h
  | succ m ih =>
    intro db h
    exact ih _ (handle_keysOnce db w h)

/-- C1: identical tag-push deliveries are idempotent at the
`(repository_id, platform_id, tag)` key — if no two build rows share
the key, that still holds after any number of identical deliveries —
and a delivery that finds an existing build for a repository's key
processes that repository without inserting a row or enqueuing a
job. -/
theorem webhook_admission_idempotent (w : WebhookPayload) (db : Catalog) (n : Nat)
    (r : RepositoryRow) (rest : List RepositoryRow) (tg : String)
    (hkeys : keysOnce db.builds = true) :
    keysOnce (deliver_iter w n db).builds = true ∧
    ((findExisting db.builds r.id r.platform_id tg).isSome = true →
      schedule_builds db (r :: rest) tg w = schedule_builds db rest tg w) := by
  constructor
  · exact deliver_iter_keysOnce w n db hkeys
  · intro hs
    obtain ⟨b, hb⟩ := Option.isSome_iff_exists.mp hs
    rw [schedule_builds, hb]

/-- C1 witness: three identical deliveries against a catalog already
holding the build keep the key unique, and scheduling skips the
repository whose key exists. -/
theorem webhook_admission_idempotent_witness :
    keysOnce db_existing.builds = true ∧
    (keysOnce (deliver_iter payload_tag 3 db_existing).builds = true ∧
      ((findExisting db_existing.builds 1 8 "1.2.3").isSome = true ∧
        schedule_builds db_existing [repo_fake] "1.2.3" payload_tag =
          schedule_builds db_existing [] "1.2.3" payload_tag)) := by
  have h := webhook_admission_idempotent payload_tag db_existing 3 repo_fake [] "1.2.3"
    (by decide)
  exact ⟨by decide, h.1, by decide, h.2 (by decide)⟩

/-! ## Object store lemmas -/

theorem hexChar_fin_inj : ∀ a b : Fin 16, hexChar a.val = hexChar b.val → a = b := by
  decide

theorem hexByte_inj (a b : Byte) (h : hexByte a = hexByte b) : a = b := by
  unfold hexByte at h
  injection h with h1 h2
  injection h2 with h2 _
  have ha1 : a.val / 16 < 16 := by omega
  have hb1 : b.val / 16 < 16 := by omega
  have ha2 : a.val % 16 < 16 := by omega
  have hb2 : b.val % 16 < 16 := by omega
  have e1 := hexChar_fin_inj ⟨a.val / 16, ha1⟩ ⟨b.val / 16, hb1⟩ h1
  have e2 := hexChar_fin_inj ⟨a.val % 16, ha2⟩ ⟨b.val % 16, hb2⟩ h2
  have v1 : a.val / 16 = b.val / 16 := congrArg Fin.val e1
  have v2 : a.val % 16 = b.val % 16 := congrArg Fin.val e2
  apply Fin.ext
  omega

theorem hexOfBytes_inj : ∀ a b : List Byte, hexOfBytes a = hexOfBytes b → a = b := by
  intro a
  induction a with
  | nil =>
    intro b h
    cases b with
    | nil => rfl
    | cons y ys => simp [hexOfBytes, hexByte] at h
  | cons x xs ih =>
    intro b h
    cases b with
    | nil => simp [hexOfBytes, hexByte] at h
    | cons y ys =>
      simp only [hexOfBytes, hexByte, List.cons_append, List.nil_append] at h
      injection h with i1 h
      injection h with i2 h
      have hxy : x = y := hexByte_inj x y (by simp [hexByte, i1, i2])
      rw [hxy, ih ys h]

theorem hexDigest_inj (a b : List Byte) (h : hexDigest a = hexDigest b) : a = b := by
  unfold hexDigest at h
  injection h with h
  exact hexOfBytes_inj a b h

/-! ## C2 — ingestion idempotence and round-trip -/

/-- C2: for any digest function and any store in which every stored
blob sits at the address of its own digest, ingesting a file returns
its digest, a second ingestion returns the same digest and leaves the
store unchanged, an ingestion whose target path already exists is a
no-op, and — provided the digest function is collision-free —
fetching the blob at the content address afterwards yields exactly the
ingested bytes. -/
theorem hash_and_store_file_idempotent (hashFn : List Byte → String) (s : Store)
    (F : List Byte)
    (hinj : ∀ a b, hashFn a = hashFn b → a = b)
    (hcons : ∀ p c, slookup s p = some c → p = storePathOf (hashFn c)) :
    (hash_and_store_file hashFn F s).1 = hashFn F ∧
    (hash_and_store_file hashFn F (hash_and_store_file hashFn F s).2).1 = hashFn F ∧
    (hash_and_store_file hashFn F (hash_and_store_file hashFn F s).2).2 =
      (hash_and_store_file hashFn F s).2 ∧
    ((slookup s (storePathOf (hashFn F))).isSome = true →
      (hash_and_store_file hashFn F s).2 = s) ∧
    slookup (hash_and_store_file hashFn F s).2 (storePathOf (hashFn F)) = some F := by
  have hfst : (hash_and_store_file hashFn F s).1 = hashFn F := by
    unfold hash_and_store_file
    split <;> rfl
  have hlook : slookup (hash_and_store_file hashFn F s).2 (storePathOf (hashFn F)) =
      some F := by
    unfold hash_and_store_file
    by_cases hocc : (slookup s (storePathOf (hashFn F))).isSome = true
    · rw [if_pos hocc]
      obtain ⟨c, hc⟩ := Option.isSome_iff_exists.mp hocc
      have hpath := hcons _ c hc
      have hFc : hashFn F = hashFn c := congrArg StorePath.fname hpath
      have hcF : c = F := (hinj F c hFc).symm
      rw [hc, hcF]
    · rw [if_neg hocc]
      simp [sinsert, slookup]
  have hocc2 : (slookup (hash_and_store_file hashFn F s).2
      (storePathOf (hashFn F))).isSome = true := by
    rw [hlook]
    rfl
  have hoccgen : ∀ t : Store, (slookup t (storePathOf (hashFn F))).isSome = true →
      hash_and_store_file hashFn F t = (hashFn F, t) := by
    intro t ht
    unfold hash_and_store_file
    rw [if_pos ht]
  have hsecond := hoccgen _ hocc2
  have hnoop : (slookup s (storePathOf (hashFn F))).isSome = true →
      (hash_and_store_file hashFn F s).2 = s := by
    intro hx
    unfold hash_and_store_file
    rw [if_pos hx]
  exact ⟨hfst, by rw [hsecond], by rw [hsecond], hnoop, hlook⟩

/-- C2 witness: ingesting the two-byte file `[0x00, 0xab]` into the
empty store under the hex-dump digest satisfies every clause. -/
theorem hash_and_store_file_idempotent_witness :
    (hash_and_store_file hexDigest file_c2 []).1 = hexDigest file_c2 ∧
    (hash_and_store_file hexDigest file_c2 (hash_and_store_file hexDigest file_c2 []).2).1 =
      hexDigest file_c2 ∧
    (hash_and_store_file hexDigest file_c2 (hash_and_store_file hexDigest file_c2 []).2).2 =
      (hash_and_store_file hexDigest file_c2 []).2 ∧
    ((slookup [] (storePathOf (hexDigest file_c2))).isSome = true →
      (hash_and_store_file hexDigest file_c2 []).2 = []) ∧
    slookup (hash_and_store_file hexDigest file_c2 []).2 (storePathOf (hexDigest file_c2)) =
      some file_c2 :=
  hash_and_store_file_idempotent hexDigest [] file_c2 hexDigest_inj
    (by intro p c hc; simp [slookup] at hc)

/-! ## C3 — ingestion is not atomic -/

/-- C3 counterexample: ingesting the two-byte file `[3, 7]` into the
empty store, interrupted after one byte, leaves a visible one-byte
file at the content address — a truncated ingestion does leave a
(partial) file visible, because `shutil.copy2` writes the final store
path directly with no temporary path, fsync, or rename. -/
theorem hash_and_store_file_partial_visible :
    slookup (hash_and_store_file_interrupted hexDigest file_c3 [] 1)
      (storePathOf (hexDigest file_c3)) = some [3] ∧
    some ([3] : List Byte) ≠ some file_c3 ∧
    (slookup (hash_and_store_file_interrupted hexDigest file_c3 [] 1)
      (storePathOf (hexDigest file_c3))).isSome = true := by
  refine ⟨by decide, by decide, by decide⟩

/-- C3 amended: the ingestion of a file whose content address is
unoccupied copies straight to the content address, so stopping after
`k` bytes leaves the `k`-byte prefix visible there; running to
completion leaves exactly the state of the completed ingestion.  (The
source has no temp-path, fsync, or rename step.) -/
theorem hash_and_store_file_interrupted_spec (hashFn : List Byte → String) (s : Store)
    (F : List Byte) (k : Nat)
    (hnone : slookup s (storePathOf (hashFn F)) = none) :
    slookup (hash_and_store_file_interrupted hashFn F s k)
      (storePathOf (hashFn F)) = some (F.take k) ∧
    hash_and_store_file_interrupted hashFn F s F.length =
      (hash_and_store_file hashFn F s).2 := by
  constructor
  · unfold hash_and_store_file_interrupted
    rw [hnone]
    simp [sinsert, slookup]
  · unfold hash_and_store_file_interrupted hash_and_store_file
    rw [hnone]
    simp [sinsert, List.take_length]

/-- C3 amended-claim witness: the concrete interrupted ingestion of
`[3, 7]` after one byte exposes `[3]`, and the completed run equals
the committed ingestion. -/
theorem hash_and_store_file_interrupted_spec_witness :
    slookup ([] : Store) (storePathOf (hexDigest file_c3)) = none ∧
    (slookup (hash_and_store_file_interrupted hexDigest file_c3 [] 1)
      (storePathOf (hexDigest file_c3)) = some (file_c3.take 1) ∧
    hash_and_store_file_interrupted hexDigest file_c3 [] file_c3.length =
      (hash_and_store_file hexDigest file_c3 []).2) :=
  ⟨by decide, hash_and_store_file_interrupted_spec hexDigest [] file_c3 1 (by decide)⟩

/-! ## Installer lemmas -/

theorem pickLatest_eq_none (l : List BuildRow) (h : pickLatest l = none) : l = [] := by
  cases l with
  | nil => rfl
  | cons b rest =>
    unfold pickLatest at h
    cases h' : pickLatest rest with
    | none => rw [h'] at h; simp at h
    | some m => rw [h'] at h; dsimp only at h; split at h <;> simp at h

theorem pickLatest_spec : ∀ (l : List BuildRow) (b : BuildRow), pickLatest l = some b →
    b ∈ l ∧ ∀ x ∈ l, x.id ≤ b.id := by
  intro l
  induction l with
  | nil => intro b h; simp [pickLatest] at h
  | cons a rest ih =>
    intro b h
    unfold pickLatest at h
    cases h' : pickLatest rest with
    | none =>
      rw [h'] at h
      have hrest := pickLatest_eq_none rest h'
      injection h with h
      subst h
      subst hrest
      refine ⟨List.mem_cons_self _ _, ?_⟩
      intro x hx
      rw [List.mem_singleton] at hx
      subst hx
      exact le_refl _
    | some m =>
      rw [h'] at h
      obtain ⟨hm, hbound⟩ := ih m h'
      dsimp only at h
      by_cases hlt : m.id < a.id
      · rw [if_pos hlt] at h
        injection h with h
        subst h
        refine ⟨List.mem_cons_self _ _, ?_⟩
        intro x hx
        rcases List.mem_cons.mp hx with rfl | hx'
        · exact le_refl _
        · exact le_of_lt (lt_of_le_of_lt (hbound x hx') hlt)
      · rw [if_neg hlt] at h
        injection h with h
        subst h
        refine ⟨List.mem_cons_of_mem a hm, ?_⟩
        intro x hx
        rcases List.mem_cons.mp hx with rfl | hx'
        · exact Nat.le_of_not_lt hlt
        · exact hbound x hx'

/-! ## C6 — build selection of the installer -/

/-- C6: once `install` has resolved the repository of a server by
`(platform_id, name)`, the selected build is a build of the catalog
with that repository id, the requested tag, and status SUCCESS, whose
id is maximal among all such builds; and when no such build exists the
loop aborts the request with the 404 `buildNotFound` error. -/
theorem install_build_selection (db : Catalog) (reponame tg : String) (server : ServerRow)
    (hosts : List HostRow) (rest : List (ServerRow × List HostRow))
    (acc : List InstallationRow) (uid itype now : Nat) (ssh : Nat → Bool)
    (repo : RepositoryRow)
    (hrepo : resolveRepository db.repositories server.platform_id reponame = some repo) :
    (∀ b, resolveBuild db.builds repo.id tg = some b →
      b ∈ db.builds ∧ b.repository_id = repo.id ∧ b.tag = tg ∧ b.status = SUCCESS ∧
      ∀ x ∈ db.builds, x.repository_id = repo.id → x.tag = tg → x.status = SUCCESS →
        x.id ≤ b.id) ∧
    (resolveBuild db.builds repo.id tg = none →
      (∀ x ∈ db.builds, ¬(x.repository_id = repo.id ∧ x.tag = tg ∧ x.status = SUCCESS)) ∧
      installLoop db uid reponame tg itype ssh now ((server, hosts) :: rest) acc =
        .error (.buildNotFound server.id)) := by
  constructor
  · intro b hb
    unfold resolveBuild at hb
    obtain ⟨hmem, hbound⟩ := pickLatest_spec _ b hb
    rw [List.mem_filter] at hmem
    obtain ⟨hmem', hpred⟩ := hmem
    simp only [Bool.and_eq_true, beq_iff_eq] at hpred
    obtain ⟨⟨h1, h2⟩, h3⟩ := hpred
    refine ⟨hmem', h1, h2, h3, ?_⟩
    intro x hx hx1 hx2 hx3
    apply hbound
    rw [List.mem_filter]
    exact ⟨hx, by simp [hx1, hx2, hx3]⟩
  · intro hn
    constructor
    · rintro x hx ⟨hx1, hx2, hx3⟩
      unfold resolveBuild at hn
      have hempty := pickLatest_eq_none _ hn
      have hxmem : x ∈ db.builds.filter
          (fun b => b.repository_id == repo.id && b.tag == tg && b.status == SUCCESS) :=
        List.mem_filter.mpr ⟨hx, by simp [hx1, hx2, hx3]⟩
      rw [hempty] at hxmem
      simp at hxmem
    · simp [installLoop, hrepo, hn]

/-- C6 witness: in the concrete catalog with SUCCESS builds of ids 10
and 20 and a FAILED build of id 30 for `(app, v1)`, the repository
resolves by `(platform 1, "app")` and the selected build is the id-20
row, maximal among the successful candidates. -/
theorem install_build_selection_witness :
    (resolveRepository db_select.repositories server1.platform_id "app" = some repo_app1 ∧
      resolveBuild db_select.builds repo_app1.id "v1" = some build20) ∧
    (build20 ∈ db_select.builds ∧ build20.repository_id = repo_app1.id ∧
      build20.tag = "v1" ∧ build20.status = SUCCESS ∧
      ∀ x ∈ db_select.builds, x.repository_id = repo_app1.id → x.tag = "v1" →
        x.status = SUCCESS → x.id ≤ build20.id) :=
  ⟨⟨by decide, by decide⟩,
    (install_build_selection db_select "app" "v1" server1 [host1] [] [] 1 GLOBAL 0
      ssh_all_ok repo_app1 (by decide)).1 build20 (by decide)⟩

/-! ## C7 — installation recording and commit semantics -/

theorem installLoop_ok_shape (db : Catalog) (uid : Nat) (reponame tg : String)
    (itype : Nat) (ssh : Nat → Bool) (now : Nat) :
    ∀ (dests : List (ServerRow × List HostRow)) (acc rows : List InstallationRow),
      installLoop db uid reponame tg itype ssh now dests acc = .ok rows →
      (∀ row ∈ acc, row.user_id = uid ∧ row.install_date = now ∧ row.valid_from = now ∧
        row.valid_to = none) →
      ∀ row ∈ rows, row.user_id = uid ∧ row.install_date = now ∧ row.valid_from = now ∧
        row.valid_to = none := by
  intro dests
  induction dests with
  | nil =>
    intro acc rows hrun hacc
    unfold installLoop at hrun
    injection hrun with hrun
    subst hrun
    exact hacc
  | cons sv rest ih =>
    intro acc rows hrun hacc
    obtain ⟨server, hosts⟩ := sv
    cases hrepo : resolveRepository db.repositories server.platform_id reponame with
    | none =>
      simp only [installLoop, hrepo] at hrun
      exact ih acc rows hrun hacc
    | some repo =>
      cases hbuild : resolveBuild db.builds repo.id tg with
      | none =>
        simp only [installLoop, hrepo, hbuild] at hrun
        exact absurd hrun (by simp)
      | some build =>
        by_cases hssh : ssh server.id = true
        · simp only [installLoop, hrepo, hbuild, hssh, if_true] at hrun
          refine ih _ rows hrun ?_
          intro row hrow
          rcases List.mem_append.mp hrow with hrow' | hrow'
          · exact hacc row hrow'
          · obtain ⟨h, _, rfl⟩ := List.mem_map.mp hrow'
            exact ⟨rfl, rfl, rfl, rfl⟩
        · simp only [installLoop, hrepo, hbuild, hssh] at hrun
          simp at hrun

/-- C7 counterexample: with two servers where placement succeeds on
the first and fails on the second, the request aborts with the 500
`sshFailure` error and the `installations` table is unchanged — the
row staged for the first server's host (which the prefix run alone
would commit) is discarded, not persisted. -/
theorem install_abort_discards_rows :
    install_run db_twoservers "alice" "app" "v1" dests_two GLOBAL ssh_second_fails 0 =
      .error (.sshFailure 2) ∧
    install_persisted db_twoservers "alice" "app" "v1" dests_two GLOBAL ssh_second_fails 0 =
      [] ∧
    installLoop db_twoservers 1 "app" "v1" GLOBAL ssh_second_fails 0 [(server1, [host1])] [] =
      .ok [mkInstallationRow 1 build10 GLOBAL 0 host1] := by
  refine ⟨by rfl, by rfl, by rfl⟩

/-- C7 amended: after placing all artifacts on a server, `install`
stages exactly one Installation row per host of that server — each
with the same `now` timestamp in `install_date` and `valid_from`, a
null `valid_to`, and the acting user's id — but the rows reach the
database only through the single commit that runs after the last
server, so a later server's failure aborts the request with an error
and discards the staged rows of the earlier servers: the
`installations` table is unchanged. -/
theorem install_recording_semantics (db : Catalog) (username reponame tg : String)
    (destinations : List (ServerRow × List HostRow)) (itype now : Nat)
    (ssh : Nat → Bool) (u : UserRow)
    (hu : db.users.find? (fun x => x.name == username) = some u) :
    (∀ server hosts rest acc repo build,
      resolveRepository db.repositories server.platform_id reponame = some repo →
      resolveBuild db.builds repo.id tg = some build →
      ssh server.id = true →
      installLoop db u.id reponame tg itype ssh now ((server, hosts) :: rest) acc =
        installLoop db u.id reponame tg itype ssh now rest
          (acc ++ hosts.map (mkInstallationRow u.id build itype now))) ∧
    (∀ rows, install_run db username reponame tg destinations itype ssh now = .ok rows →
      ∀ row ∈ rows, row.user_id = u.id ∧ row.install_date = now ∧ row.valid_from = now ∧
        row.valid_to = none) ∧
    (∀ e, install_run db username reponame tg destinations itype ssh now = .error e →
      install_persisted db username reponame tg destinations itype ssh now =
        db.installations) := by
  refine ⟨?_, ?_, ?_⟩
  · intro server hosts rest acc repo build hrepo hbuild hssh
    simp [installLoop, hrepo, hbuild, hssh]
  · intro rows hrun row hrow
    by_cases hd : destinations = []
    · simp only [install_run, hu, hd, if_true] at hrun
      exact absurd hrun (by simp)
    · simp only [install_run, hu, hd, if_false, ite_false] at hrun
      exact installLoop_ok_shape db u.id reponame tg itype ssh now destinations [] rows
        hrun (by intro row hrow'; simp at hrow') row hrow
  · intro e he
    unfold install_persisted
    rw [he]

/-- C7 amended-claim witness: with both servers succeeding the request
commits one correctly shaped row per host, the per-server step appends
exactly the rows of that server's hosts, and with the second server
failing the aborted request leaves the installations table unchanged. -/
theorem install_recording_semantics_witness :
    db_twoservers.users.find? (fun x => x.name == "alice") = some user_alice ∧
    installLoop db_twoservers user_alice.id "app" "v1" GLOBAL ssh_all_ok 0
        ((server1, [host1]) :: []) [] =
      installLoop db_twoservers user_alice.id "app" "v1" GLOBAL ssh_all_ok 0 []
        ([] ++ [host1].map (mkInstallationRow user_alice.id build10 GLOBAL 0)) ∧
    (install_run db_twoservers "alice" "app" "v1" dests_two GLOBAL ssh_all_ok 0 =
      .ok [mkInstallationRow 1 build10 GLOBAL 0 host1,
           mkInstallationRow 1 build11 GLOBAL 0 host2] ∧
    (∀ row ∈ [mkInstallationRow 1 build10 GLOBAL 0 host1,
              mkInstallationRow 1 build11 GLOBAL 0 host2],
      row.user_id = user_alice.id ∧ row.install_date = 0 ∧ row.valid_from = 0 ∧
        row.valid_to = none) ∧
    install_run db_twoservers "alice" "app" "v1" dests_two GLOBAL ssh_second_fails 0 =
      .error (.sshFailure 2) ∧
    install_persisted db_twoservers "alice" "app" "v1" dests_two GLOBAL ssh_second_fails 0 =
      db_twoservers.installations) := by
  have hok := install_recording_semantics db_twoservers "alice" "app" "v1" dests_two
    GLOBAL 0 ssh_all_ok user_alice (by rfl)
  have hfail := install_recording_semantics db_twoservers "alice" "app" "v1" dests_two
    GLOBAL 0 ssh_second_fails user_alice (by rfl)
  refine ⟨by rfl, ?_, by rfl, ?_, by rfl, ?_⟩
  · exact hok.1 server1 [host1] [] [] repo_app1 build10 (by rfl) (by rfl) (by rfl)
  · exact hok.2.1 _ (by rfl)
  · exact hfail.2.2 (.sshFailure 2) (by rfl)

end Inau
